import Mathlib

/-!
Verification of the pywiggum core against its specification.

Shallow embedding of the Python modules `kanban.py`, `routing.py`,
`history.py`, `controls.py` and the task-tracking fragment of `runner.py`.
Pure functions become Lean functions; methods that touch the filesystem
are modelled by explicit state passing (the relevant file contents are
fields of a state structure); Python exceptions become `Except` values.
-/

namespace PyWiggum

/-! ## Kanban board model (`kanban.py`) -/

/-- `TaskStatus = Literal["todo", "done", "failed"]`. -/
inductive TaskStatus where
  | todo
  | done
  | failed
deriving DecidableEq, Repr

/-- `class Task(BaseModel)` from `kanban.py`. -/
structure Task where
  id : String
  title : String
  description : String
  acceptance_criteria : List String := []
  status : TaskStatus := .todo
  note : Option String := none
  type : Option String := none
deriving DecidableEq, Repr

/-- `class Milestone(BaseModel)` from `kanban.py`. -/
structure Milestone where
  id : String
  name : String
  blocked_by : List String := []
  tasks : List Task := []
deriving DecidableEq, Repr

/-- `class KanbanBoard(BaseModel)` from `kanban.py`. -/
structure KanbanBoard where
  milestones : List Milestone := []
deriving DecidableEq, Repr

/-- `KanbanManager._is_milestone_done`: true iff every task has status
`done` (`if not milestone.tasks: return True` followed by `all(...)`,
which is exactly `List.all`, vacuously true on the empty list). -/
def is_milestone_done (m : Milestone) : Bool :=
  m.tasks.all (fun t => t.status == TaskStatus.done)

/-- The set of completed milestone ids built at the top of
`find_next_task` (a Python `set`, used only for membership tests, so a
list queried with `contains` is a faithful model). -/
def completed_milestone_ids (b : KanbanBoard) : List String :=
  (b.milestones.filter is_milestone_done).map Milestone.id

/-- The milestone loop of `find_next_task`: skip a milestone when
`any(blocker not in completed_milestone_ids for blocker in milestone.blocked_by)`,
otherwise return the first task with status todo, if any, else keep
scanning. -/
def findNextTaskAux (completed : List String) :
    List Milestone → Option (Milestone × Task)
  | [] => none
  | m :: rest =>
    if m.blocked_by.any (fun blocker => !completed.contains blocker) then
      findNextTaskAux completed rest
    else
      match m.tasks.find? (fun t => t.status == TaskStatus.todo) with
      | some t => some (m, t)
      | none => findNextTaskAux completed rest

/-- `KanbanManager.find_next_task` on a loaded board. -/
def find_next_task (b : KanbanBoard) : Option (Milestone × Task) :=
  findNextTaskAux (completed_milestone_ids b) b.milestones

/-- A milestone is unblocked on board `b` when each of its blockers is
the id of some done milestone of `b` (the spec: blocked iff any blocker
is not done). -/
def milestoneUnblocked (b : KanbanBoard) (m : Milestone) : Bool :=
  m.blocked_by.all (fun blocker => (completed_milestone_ids b).contains blocker)

/-- The spec's description of next-task selection, stated independently
of the code's loop structure: list, in declaration order, every pair of
an unblocked milestone together with its first todo task, and take the
head. -/
def findNextTaskSpec (b : KanbanBoard) : Option (Milestone × Task) :=
  (b.milestones.filterMap (fun m =>
    if milestoneUnblocked b m then
      (m.tasks.find? (fun t => t.status == TaskStatus.todo)).map (fun t => (m, t))
    else
      none)).head?

/-- The code's milestone loop computes exactly the head of the spec's
list of candidate pairs. -/
theorem findNextTaskAux_eq (completed : List String) (ms : List Milestone) :
    findNextTaskAux completed ms =
      (ms.filterMap (fun m =>
        if m.blocked_by.all (fun blocker => completed.contains blocker) then
          (m.tasks.find? (fun t => t.status == TaskStatus.todo)).map (fun t => (m, t))
        else none)).head? := by
  induction ms with
  | nil => rfl
  | cons m rest ih =>
    rcases hall : m.blocked_by.all (fun blocker => completed.contains blocker) with _ | _
    · have hb : (m.blocked_by.any fun blocker => !completed.contains blocker) = true := by
        rcases List.all_eq_false.mp hall with ⟨x, hx, hpx⟩
        exact List.any_eq_true.mpr ⟨x, hx, by simpa using hpx⟩
      rw [findNextTaskAux, if_pos hb, List.filterMap_cons, hall]
      simpa using ih
    · have hb : ¬ (m.blocked_by.any fun blocker => !completed.contains blocker) = true := by
        intro hc
        rcases List.any_eq_true.mp hc with ⟨x, hx, hpx⟩
        exact absurd (List.all_eq_true.mp hall x hx) (by simpa using hpx)
      rw [findNextTaskAux, if_neg hb, List.filterMap_cons, hall]
      rcases hf : m.tasks.find? (fun t => t.status == TaskStatus.todo) with _ | t
      · rw [hf]
        simpa using ih
      · rw [hf]
        simp

/-- Any pair returned by `find_next_task` consists of an unblocked
milestone of the board together with one of its tasks found todo. -/
theorem find_next_task_unblocked (b : KanbanBoard) (p : Milestone × Task)
    (h : find_next_task b = some p) :
    milestoneUnblocked b p.1 = true ∧ p.1 ∈ b.milestones := by
  rw [find_next_task, findNextTaskAux_eq] at h
  have hmem : p ∈ b.milestones.filterMap (fun m =>
      if m.blocked_by.all (fun blocker => (completed_milestone_ids b).contains blocker) then
        (m.tasks.find? (fun t => t.status == TaskStatus.todo)).map (fun t => (m, t))
      else none) := by
    exact List.mem_of_mem_head? (by rw [h]; exact rfl)
  rcases List.mem_filterMap.mp hmem with ⟨m, hm, hf⟩
  by_cases hall : m.blocked_by.all
      (fun blocker => (completed_milestone_ids b).contains blocker) = true
  · rw [if_pos hall] at hf
    rcases Option.map_eq_some'.mp hf with ⟨t, _, hpt⟩
    subst hpt
    exact ⟨hall, hm⟩
  · rw [if_neg hall] at hf
    exact absurd hf (Option.some_ne_none p).symm

/-- The inner task loop of `update_task_status`: update the first task
whose id matches (setting the status always and the note only when one
is given), or `none` when no task of the list matches. -/
def updateTaskInList (task_id : String) (status : TaskStatus)
    (note : Option String) : List Task → Option (List Task)
  | [] => none
  | t :: rest =>
    if t.id == task_id then
      some ({ t with
              status := status,
              note := match note with | some n => some n | none => t.note } :: rest)
    else
      (updateTaskInList task_id status note rest).map (fun ts => t :: ts)

/-- The outer milestone loop of `update_task_status`: the first
milestone containing a matching task gets that task updated; later
milestones are untouched. `none` when no task on the board matches. -/
def updateMilestones (task_id : String) (status : TaskStatus)
    (note : Option String) : List Milestone → Option (List Milestone)
  | [] => none
  | m :: rest =>
    match updateTaskInList task_id status note m.tasks with
    | some ts => some ({ m with tasks := ts } :: rest)
    | none => (updateMilestones task_id status note rest).map (fun ms => m :: ms)

/-- State of a `KanbanManager` with a loaded board: the in-memory board,
the contents of the persisted board file, and how many `save()` calls
have been performed. -/
structure KanbanManagerState where
  board : KanbanBoard
  persisted : KanbanBoard
  saves : Nat
deriving DecidableEq, Repr

/-- `KanbanManager.update_task_status`: scan milestones then tasks; on
the first task with matching id, mutate it in place, `save()` (which
persists the whole board) and return `True`; return `False` when the
scan finds nothing, without saving. -/
def update_task_status (st : KanbanManagerState) (task_id : String)
    (status : TaskStatus) (note : Option String) : Bool × KanbanManagerState :=
  match updateMilestones task_id status note st.board.milestones with
  | some ms =>
      let b' : KanbanBoard := ⟨ms⟩
      (true, { board := b', persisted := b', saves := st.saves + 1 })
  | none => (false, st)

theorem updateTaskInList_eq_none (task_id : String) (status : TaskStatus)
    (note : Option String) (ts : List Task)
    (h : ∀ t ∈ ts, t.id ≠ task_id) :
    updateTaskInList task_id status note ts = none := by
  induction ts with
  | nil => rfl
  | cons t rest ih =>
    have ht : (t.id == task_id) = false := by simpa using h t (by simp)
    simp [updateTaskInList, ht, ih fun x hx => h x (by simp [hx])]

theorem updateMilestones_eq_none (task_id : String) (status : TaskStatus)
    (note : Option String) (ms : List Milestone)
    (h : ∀ m ∈ ms, ∀ t ∈ m.tasks, t.id ≠ task_id) :
    updateMilestones task_id status note ms = none := by
  induction ms with
  | nil => rfl
  | cons m rest ih =>
    simp [updateMilestones,
      updateTaskInList_eq_none task_id status note m.tasks (h m (by simp)),
      ih fun x hx => h x (by simp [hx])]

/-- The board built by `KanbanManager.create_template`, used as a
concrete test input. -/
def create_template : KanbanBoard :=
  { milestones :=
      [ { id := "M1"
          name := "Project Setup"
          blocked_by := []
          tasks :=
            [ { id := "M1.1"
                title := "Initialize project structure"
                description := "Create basic project files and folders"
                acceptance_criteria :=
                  ["Project directory exists", "Basic files created"] },
              { id := "M1.2"
                title := "Set up development environment"
                description := "Install dependencies and configure tools"
                acceptance_criteria :=
                  ["Dependencies installed", "Development server runs"] } ] },
        { id := "M2"
          name := "Core Implementation"
          blocked_by := ["M1"]
          tasks :=
            [ { id := "M2.1"
                title := "Implement core feature"
                description := "Build the main functionality"
                acceptance_criteria :=
                  ["Feature works as expected", "Tests pass"] } ] } ] }

/-- C1: `find_next_task` scans milestones in declaration order, skips
every milestone one of whose blockers is not done (a milestone is done
iff every contained task is done, vacuously for no tasks), returns the
first todo task of the first unblocked milestone holding one, and
returns none exactly when no unblocked milestone holds a todo task. -/
theorem find_next_task_correct (b : KanbanBoard) :
    find_next_task b = findNextTaskSpec b ∧
      (find_next_task b = none ↔
        ∀ m ∈ b.milestones, milestoneUnblocked b m = true →
          ∀ t ∈ m.tasks, t.status ≠ TaskStatus.todo) := by
  have heq : find_next_task b = findNextTaskSpec b := by
    rw [find_next_task, findNextTaskAux_eq]
    rfl
  refine ⟨heq, ?_⟩
  rw [heq, findNextTaskSpec, List.head?_eq_none_iff, List.filterMap_eq_nil_iff]
  constructor
  · intro h m hm hub t ht hst
    have hf := h m hm
    rw [if_pos hub, Option.map_eq_none'] at hf
    exact absurd (by simp [hst] : (t.status == TaskStatus.todo) = true)
      (by simpa using List.find?_eq_none.mp hf t ht)
  · intro h m hm
    by_cases hub : milestoneUnblocked b m = true
    · rw [if_pos hub, Option.map_eq_none']
      refine List.find?_eq_none.mpr fun t ht => ?_
      simpa using h m hm hub t ht
    · rw [if_neg hub]

/-- Concrete run of C1 on the template board: the selection agrees with
the spec description and picks M1's first task. -/
theorem find_next_task_correct_witness :
    find_next_task create_template = findNextTaskSpec create_template :=
  (find_next_task_correct create_template).1

/-- C8: updating a task id that is absent from the board returns False,
leaves the in-memory board and the persisted file unchanged, and
performs no save. -/
theorem update_task_status_missing_id (st : KanbanManagerState)
    (task_id : String) (status : TaskStatus) (note : Option String)
    (h : ∀ m ∈ st.board.milestones, ∀ t ∈ m.tasks, t.id ≠ task_id) :
    update_task_status st task_id status note = (false, st) := by
  rw [update_task_status, updateMilestones_eq_none task_id status note _ h]

/-- Concrete run of C8: asking for the unknown id `M9.9` on the template
board reports False and changes nothing. -/
theorem update_task_status_missing_id_witness :
    update_task_status ⟨create_template, create_template, 0⟩ "M9.9"
        TaskStatus.done none
      = (false, ⟨create_template, create_template, 0⟩) :=
  update_task_status_missing_id _ "M9.9" _ _ (by decide)

/-- C9: a milestone one of whose blockers matches no milestone id on the
board is always treated as blocked, so `find_next_task` never returns a
task of that milestone, whatever the task statuses are. -/
theorem phantom_blocker_blocks (b : KanbanBoard) (m : Milestone)
    (blocker : String) (_hm : m ∈ b.milestones) (hb : blocker ∈ m.blocked_by)
    (hph : ∀ m' ∈ b.milestones, m'.id ≠ blocker) :
    (find_next_task b).all (fun p => p.1 != m) = true := by
  rcases hres : find_next_task b with _ | p
  · rfl
  · rcases find_next_task_unblocked b p hres with ⟨hub, _⟩
    have hneq : p.1 ≠ m := by
      intro hpm
      rw [hpm] at hub
      have hcontains : blocker ∈ completed_milestone_ids b := by
        simpa using List.all_eq_true.mp hub blocker hb
      rcases List.mem_map.mp hcontains with ⟨m', hm', hid⟩
      exact hph m' (List.mem_of_mem_filter hm') hid
    simpa [Option.all] using hneq

/-- Concrete run of C9: a milestone blocked by the nonexistent id
`GHOST` is never selected although its only task is todo. -/
theorem phantom_blocker_blocks_witness :
    (find_next_task
        ⟨[⟨"M1", "Phantom", ["GHOST"],
           [⟨"M1.1", "t", "d", [], TaskStatus.todo, none, none⟩]⟩]⟩).all
      (fun p => p.1 != ⟨"M1", "Phantom", ["GHOST"],
           [⟨"M1.1", "t", "d", [], TaskStatus.todo, none, none⟩]⟩) = true :=
  phantom_blocker_blocks _ _ "GHOST" (by decide) (by decide) (by decide)

/-! ## Routing and escalation model (`routing.py`) -/

/-- `class AgentLevel(str, Enum)`: the Springfield PD hierarchy. Every
value serializes to a non-empty lowercase string, so every `AgentLevel`
is truthy in Python. -/
inductive AgentLevel where
  | ralph
  | eddie
  | lou
  | matt
deriving DecidableEq, Repr

/-- `class RoutingRule(BaseModel)`. -/
structure RoutingRule where
  task_type : Option String := none
  milestone_id : Option String := none
  task_id_pattern : Option String := none
  agent_level : AgentLevel := .ralph
  model : Option String := none
deriving DecidableEq, Repr

/-- `class EscalationConfig(BaseModel)`. -/
structure EscalationConfig where
  enabled : Bool := false
  trigger_after_iterations : Int := 3
  trigger_after_duration : Int := 1800
  escalation_chain : List AgentLevel := [.ralph, .eddie, .lou, .matt]
deriving DecidableEq, Repr

/-- An agent configuration dict (`dict[str, Any]`); in the routing code
the values read and written are strings, so an insertion-ordered
association list of strings models it. -/
abbrev AgentDict := List (String × String)

/-- Python `d[key] = value`: replace the value in place when the key
exists (dicts preserve insertion order), append otherwise. -/
def dictSet (d : AgentDict) (key value : String) : AgentDict :=
  if d.any (fun e => e.1 == key) then
    d.map (fun e => if e.1 == key then (key, value) else e)
  else
    d ++ [(key, value)]

/-- `self.config.agents.get(level, {})`: the per-level dict, or the
empty dict when the level has no entry. -/
def agentsGet (agents : List (AgentLevel × AgentDict)) (level : AgentLevel) :
    AgentDict :=
  match agents.find? (fun e => e.1 == level) with
  | some e => e.2
  | none => []

/-- The default `agents` mapping of `RoutingConfig`. -/
def defaultAgents : List (AgentLevel × AgentDict) :=
  [ (.ralph, [("backend", "opencode"), ("model", "vllm/qwen3-coder-next"),
      ("description", "Local model for basic tasks")]),
    (.eddie, [("backend", "opencode"), ("model", "vllm/qwen3-32b-instruct"),
      ("description", "Better local model for moderate complexity")]),
    (.lou, [("backend", "claude_code"), ("model", "claude-sonnet-4-5"),
      ("description", "Frontier model for complex tasks")]),
    (.matt, [("backend", "human"), ("description", "Human in the loop")]) ]

/-- `class RoutingConfig(BaseModel)`. -/
structure RoutingConfig where
  agents : List (AgentLevel × AgentDict) := defaultAgents
  rules : List RoutingRule := []
  default_agent : AgentLevel := .ralph
  escalation : EscalationConfig := {}
deriving DecidableEq, Repr

/-- Python truthiness of an optional string field: `None` and the empty
string are both falsy. -/
def truthyOptStr : Option String → Bool
  | none => false
  | some s => !s.isEmpty

/-- `Router._matches_rule`, parametrized by the regex engine `reMatch`
(modelling `re.match(pattern, task_id)`): each guard returns False when
the field is truthy and the comparison fails. -/
def matches_rule (reMatch : String → String → Bool) (rule : RoutingRule)
    (task_id : String) (task_type : Option String)
    (milestone_id : Option String) : Bool :=
  if truthyOptStr rule.task_type && !(rule.task_type == task_type) then
    false
  else if truthyOptStr rule.milestone_id && !(rule.milestone_id == milestone_id) then
    false
  else if (match rule.task_id_pattern with
           | some p => !p.isEmpty && !reMatch p task_id
           | none => false) then
    false
  else
    true

/-- `Router.route_task`: first matching rule wins, returning its level
and that level's agent dict with the rule's model override written when
`rule.model` is truthy; with no matching rule, `current_level or
default_agent` (`or` is `getD` because `AgentLevel` values are truthy)
with that level's dict. -/
def route_task (reMatch : String → String → Bool) (config : RoutingConfig)
    (task_id : String) (task_type : Option String)
    (milestone_id : Option String) (current_level : Option AgentLevel) :
    AgentLevel × AgentDict :=
  match config.rules.find?
      (fun rule => matches_rule reMatch rule task_id task_type milestone_id) with
  | some rule =>
      let agent_config := agentsGet config.agents rule.agent_level
      let agent_config :=
        match rule.model with
        | some m => if m.isEmpty then agent_config else dictSet agent_config "model" m
        | none => agent_config
      (rule.agent_level, agent_config)
  | none =>
      let level := current_level.getD config.default_agent
      (level, agentsGet config.agents level)

/-- `Router.escalate`: none when escalation is disabled; otherwise the
chain entry after the first occurrence of `current_level`, or none when
that occurrence is last or `list.index` raises (level not in chain). -/
def escalate (config : RoutingConfig) (current_level : AgentLevel) :
    Option AgentLevel :=
  if !config.escalation.enabled then
    none
  else
    let chain := config.escalation.escalation_chain
    match chain.indexOf? current_level with
    | some current_idx =>
        if current_idx + 1 < chain.length then chain[current_idx + 1]? else none
    | none => none

/-- A routing configuration with escalation enabled and the default
chain, used as a concrete test input. -/
def enabledEscalation : RoutingConfig :=
  { escalation := { enabled := true } }

/-- C5: `escalate` returns none when escalation is disabled; when
enabled, it returns the chain entry after `current_level`'s position
when that position is not the last one, and none when the position is
the last one or the level does not occur in the chain at all. -/
theorem escalate_correct (config : RoutingConfig) (current : AgentLevel) :
    (config.escalation.enabled = false → escalate config current = none) ∧
    (config.escalation.enabled = true →
      (current ∉ config.escalation.escalation_chain →
        escalate config current = none) ∧
      (∀ i : Nat,
        config.escalation.escalation_chain.indexOf? current = some i →
          (∀ h : i + 1 < config.escalation.escalation_chain.length,
            escalate config current =
              some (config.escalation.escalation_chain.get ⟨i + 1, h⟩)) ∧
          (i + 1 = config.escalation.escalation_chain.length →
            escalate config current = none))) := by
  refine ⟨fun hdis => ?_, fun hen => ⟨fun hnotin => ?_, fun i hi => ⟨fun h => ?_, fun h => ?_⟩⟩⟩
  · simp [escalate, hdis]
  · have hidx : config.escalation.escalation_chain.indexOf? current = none :=
      List.indexOf?_eq_none_iff.mpr fun x hx hbeq => hnotin (eq_of_beq hbeq ▸ hx)
    simp [escalate, hen, hidx]
  · simp only [escalate, hen, Bool.not_true, Bool.false_eq_true, if_false, hi]
    rw [if_pos h, List.getElem?_eq_getElem h]
    rfl
  · simp only [escalate, hen, Bool.not_true, Bool.false_eq_true, if_false, hi]
    rw [if_neg (by omega)]

/-- Concrete run of C5: with escalation enabled on the default chain,
RALPH (position 0) escalates to the entry at position 1 (EDDIE). -/
theorem escalate_correct_witness :
    escalate enabledEscalation AgentLevel.ralph =
      some (enabledEscalation.escalation.escalation_chain.get ⟨1, by decide⟩) :=
  (((escalate_correct enabledEscalation AgentLevel.ralph).2 rfl).2 0 rfl).1 (by decide)

/-- Rule matching as claim C4 reads it: a filter is present exactly when
the field is not `None`, and every present filter must match. -/
def claimFiltersMatch (reMatch : String → String → Bool) (rule : RoutingRule)
    (task_id : String) (task_type milestone_id : Option String) : Bool :=
  (match rule.task_type with
   | some s => some s == task_type
   | none => true) &&
  (match rule.milestone_id with
   | some s => some s == milestone_id
   | none => true) &&
  (match rule.task_id_pattern with
   | some p => reMatch p task_id
   | none => true)

/-- Routing as claim C4 reads it: first rule all of whose present
(non-`None`) filters match wins. -/
def routeTaskClaim (reMatch : String → String → Bool) (config : RoutingConfig)
    (task_id : String) (task_type : Option String)
    (milestone_id : Option String) (current_level : Option AgentLevel) :
    AgentLevel × AgentDict :=
  match config.rules.find?
      (fun rule => claimFiltersMatch reMatch rule task_id task_type milestone_id) with
  | some rule =>
      let agent_config := agentsGet config.agents rule.agent_level
      let agent_config :=
        match rule.model with
        | some m => dictSet agent_config "model" m
        | none => agent_config
      (rule.agent_level, agent_config)
  | none =>
      let level := current_level.getD config.default_agent
      (level, agentsGet config.agents level)

/-- Rule matching as amended: a filter counts as present only when it is
a non-`None`, non-empty string (Python truthiness), and every such
filter must match. -/
def amendedFiltersMatch (reMatch : String → String → Bool) (rule : RoutingRule)
    (task_id : String) (task_type milestone_id : Option String) : Bool :=
  (match rule.task_type with
   | some s => s.isEmpty || (some s == task_type)
   | none => true) &&
  (match rule.milestone_id with
   | some s => s.isEmpty || (some s == milestone_id)
   | none => true) &&
  (match rule.task_id_pattern with
   | some p => p.isEmpty || reMatch p task_id
   | none => true)

/-- First-match routing over a rule list, written as direct recursion
following the amended spec wording; the winning rule's model override is
applied only when it is a non-empty string. -/
def routeRulesAmended (reMatch : String → String → Bool) (config : RoutingConfig)
    (task_id : String) (task_type milestone_id : Option String) :
    List RoutingRule → Option (AgentLevel × AgentDict)
  | [] => none
  | rule :: rest =>
    if amendedFiltersMatch reMatch rule task_id task_type milestone_id then
      some (rule.agent_level,
        match rule.model with
        | some m =>
            if m.isEmpty then agentsGet config.agents rule.agent_level
            else dictSet (agentsGet config.agents rule.agent_level) "model" m
        | none => agentsGet config.agents rule.agent_level)
    else
      routeRulesAmended reMatch config task_id task_type milestone_id rest

/-- The amended spec for `route_task`: rules in list order, first rule
whose present non-empty filters all match wins with its level and its
level's dict (model override applied when non-empty); otherwise the
given current level, or else the default level, with that level's
dict. -/
def routeTaskAmended (reMatch : String → String → Bool) (config : RoutingConfig)
    (task_id : String) (task_type milestone_id : Option String)
    (current_level : Option AgentLevel) : AgentLevel × AgentDict :=
  match routeRulesAmended reMatch config task_id task_type milestone_id config.rules with
  | some result => result
  | none =>
      (current_level.getD config.default_agent,
        agentsGet config.agents (current_level.getD config.default_agent))

/-- The code's early-return matcher agrees with the amended conjunctive
formulation. -/
theorem matches_rule_eq_amended (reMatch : String → String → Bool)
    (rule : RoutingRule) (task_id : String)
    (task_type milestone_id : Option String) :
    matches_rule reMatch rule task_id task_type milestone_id =
      amendedFiltersMatch reMatch rule task_id task_type milestone_id := by
  obtain ⟨tt, mi, pat, lvl, mdl⟩ := rule
  rcases tt with _ | s <;> rcases mi with _ | s2 <;> rcases pat with _ | s3 <;>
    simp only [matches_rule, amendedFiltersMatch, truthyOptStr] <;>
    (try cases hs : s.isEmpty) <;> (try cases hb : (some s == task_type)) <;>
    (try cases hs2 : s2.isEmpty) <;> (try cases hb2 : (some s2 == milestone_id)) <;>
    simp_all

/-- The recursion of `routeRulesAmended` computes the first-match search
that `route_task` performs with `find?`. -/
theorem routeRulesAmended_eq_find? (reMatch : String → String → Bool)
    (config : RoutingConfig) (task_id : String)
    (task_type milestone_id : Option String) (rules : List RoutingRule) :
    routeRulesAmended reMatch config task_id task_type milestone_id rules =
      (rules.find?
          (fun rule => matches_rule reMatch rule task_id task_type milestone_id)).map
        (fun rule =>
          (rule.agent_level,
            match rule.model with
            | some m =>
                if m.isEmpty then agentsGet config.agents rule.agent_level
                else dictSet (agentsGet config.agents rule.agent_level) "model" m
            | none => agentsGet config.agents rule.agent_level)) := by
  induction rules with
  | nil => rfl
  | cons rule rest ih =>
    rw [routeRulesAmended, List.find?_cons, ← matches_rule_eq_amended]
    rcases hmr : matches_rule reMatch rule task_id task_type milestone_id with _ | _
    · simpa using ih
    · simp

/-- C4 (amended): `route_task` equals the amended first-match spec:
rules in list order, a rule wins iff all its present non-empty filters
match, its model override is applied when non-empty, and with no winner
the current level (or else the default level) together with that level's
configured dict is returned. In particular when two rules both match,
the earlier one's level is returned. -/
theorem route_task_eq_amended (reMatch : String → String → Bool)
    (config : RoutingConfig) (task_id : String)
    (task_type milestone_id : Option String)
    (current_level : Option AgentLevel) :
    route_task reMatch config task_id task_type milestone_id current_level =
      routeTaskAmended reMatch config task_id task_type milestone_id current_level := by
  rw [route_task, routeTaskAmended, routeRulesAmended_eq_find?]
  rcases hf : config.rules.find?
      (fun rule => matches_rule reMatch rule task_id task_type milestone_id) with _ | rule
  · rfl
  · rcases rule.model with _ | m
    · rfl
    · rfl

/-- A rule whose task-type filter is present but empty, routing to LOU. -/
def emptyFilterRule : RoutingRule :=
  { task_type := some "", agent_level := .lou }

/-- A configuration whose single rule is `emptyFilterRule`, with the
default agents and default level RALPH. -/
def emptyFilterConfig : RoutingConfig :=
  { rules := [emptyFilterRule] }

/-- C4 counterexample: for the rule with the present-but-empty task-type
filter `""` and a task of type `"code"`, the claim's reading (present
filters must match, so the rule loses and the default RALPH is used)
disagrees with the code, which skips the falsy filter and lets the rule
win with LOU. -/
theorem route_task_claim_counterexample :
    route_task (fun _ _ => true) emptyFilterConfig "T1" (some "code") none none ≠
      routeTaskClaim (fun _ _ => true) emptyFilterConfig "T1" (some "code") none none ∧
    (route_task (fun _ _ => true) emptyFilterConfig "T1" (some "code") none none).1 =
      AgentLevel.lou ∧
    (routeTaskClaim (fun _ _ => true) emptyFilterConfig "T1" (some "code") none none).1 =
      AgentLevel.ralph := by
  refine ⟨?_, rfl, rfl⟩
  decide

/-- Concrete run of the amended C4: on a two-rule configuration where
both rules match, the first one's level LOU wins, as computed equally by
the code and the amended spec. -/
theorem route_task_eq_amended_witness :
    route_task (fun _ _ => true)
        { rules := [{ task_type := some "code", agent_level := .lou },
                    { task_type := some "code", agent_level := .eddie }] }
        "T1" (some "code") none none =
      routeTaskAmended (fun _ _ => true)
        { rules := [{ task_type := some "code", agent_level := .lou },
                    { task_type := some "code", agent_level := .eddie }] }
        "T1" (some "code") none none :=
  route_task_eq_amended (fun _ _ => true) _ "T1" (some "code") none none

/-! ## Runner task-tracking fragment (`runner.py`) -/

/-- The per-task tracking state of `Runner` (`runner.py` constructor):
tracked task id, start time (`datetime.now()` modelled as an integer
timestamp), attempt counter, current agent level. -/
structure RunnerTaskState where
  current_task_id : Option String := none
  current_task_start : Option Int := none
  current_task_iterations : Int := 0
  current_agent_level : AgentLevel := .ralph
deriving DecidableEq, Repr

/-- Lines 202–207 of `Runner._run_loop`: `is_new_task = task.id !=
self.current_task_id`; when new, set the tracked id, set the start
timestamp to now, reset the attempt counter to 0 and set the agent
level to the literal `AgentLevel.RALPH`. -/
def runnerNewTaskReset (st : RunnerTaskState) (taskId : String) (now : Int) :
    RunnerTaskState :=
  if some taskId != st.current_task_id then
    { st with
        current_task_id := some taskId,
        current_task_start := some now,
        current_task_iterations := 0,
        current_agent_level := AgentLevel.ralph }
  else
    st

/-- A routing configuration whose escalation chain starts at EDDIE. -/
def eddieFirstConfig : RoutingConfig :=
  { escalation := { enabled := true, escalation_chain := [.eddie, .lou, .matt] } }

/-- C3 counterexample: on a tick that switches to the new task `M1.1`
under a configuration whose escalation chain starts at EDDIE, the runner
resets the level to RALPH, not to the chain's first entry — the reset
never consults the configured chain. -/
theorem runner_reset_not_chain_start :
    (runnerNewTaskReset
        { current_task_id := some "M0.9", current_task_start := some 0,
          current_task_iterations := 2, current_agent_level := AgentLevel.matt }
        "M1.1" 5).current_agent_level = AgentLevel.ralph ∧
    eddieFirstConfig.escalation.escalation_chain.head? = some AgentLevel.eddie ∧
    AgentLevel.ralph ≠ AgentLevel.eddie := by
  decide

/-- C3 (amended): on every tick in which the selected task's id differs
from the tracked one, the runner resets the start timestamp to the
current time, the attempt counter to zero, and the capability level to
`AgentLevel.RALPH` (the first entry of the default escalation chain),
regardless of the configured chain. -/
theorem runner_new_task_reset_correct (st : RunnerTaskState) (taskId : String)
    (now : Int) (h : some taskId ≠ st.current_task_id) :
    runnerNewTaskReset st taskId now =
      { current_task_id := some taskId, current_task_start := some now,
        current_task_iterations := 0, current_agent_level := AgentLevel.ralph } ∧
    ({} : EscalationConfig).escalation_chain.head? = some AgentLevel.ralph := by
  refine ⟨?_, rfl⟩
  rw [runnerNewTaskReset, if_pos]
  simpa using h

/-- Concrete run of the amended C3: starting from the initial runner
state at level MATT, switching to task `M1.1` at time 7 resets tracking
and the level to RALPH. -/
theorem runner_new_task_reset_witness :
    runnerNewTaskReset
        { current_task_id := none, current_task_start := none,
          current_task_iterations := 4, current_agent_level := AgentLevel.matt }
        "M1.1" 7 =
      { current_task_id := some "M1.1", current_task_start := some 7,
        current_task_iterations := 0, current_agent_level := AgentLevel.ralph } ∧
    ({} : EscalationConfig).escalation_chain.head? = some AgentLevel.ralph :=
  runner_new_task_reset_correct _ "M1.1" 7 (by decide)

/-! ## History and velocity model (`history.py`) -/

/-- `@dataclass TaskCompletion`, with the float `duration_seconds`
modelled over `ℚ` (exact arithmetic; every duration and average in the
verified statements is exactly representable in binary floating point as
well). -/
structure TaskCompletion where
  task_id : String
  task_title : String
  started_at : String
  completed_at : String
  duration_seconds : ℚ
  iterations : Int
  status : String
deriving DecidableEq, Repr

/-- `HistoryTracker.get_average_duration` on the in-memory completion
list: mean `duration_seconds` over completions with status done, in
minutes; 0 when there are no completions or no done completions. -/
def get_average_duration (completions : List TaskCompletion) : ℚ :=
  if completions.isEmpty then 0
  else
    let successful := completions.filter (fun c => c.status == "done")
    if successful.isEmpty then 0
    else
      (successful.map (fun c => c.duration_seconds)).sum /
        (successful.length : ℚ) / 60

/-- `HistoryTracker.predict_eta`, with datetimes modelled as rational
minute timestamps (`datetime.now()` becomes the parameter `now`, and
`timedelta(minutes=m)` becomes adding `m`): `now` when nothing remains;
none when the average duration is 0; otherwise `now + avg * remaining`
minutes. -/
def predict_eta (completions : List TaskCompletion) (now : ℚ)
    (remaining_tasks : Int) : Option ℚ :=
  if remaining_tasks == 0 then
    some now
  else
    let avg_duration := get_average_duration completions
    if avg_duration == 0 then none
    else some (now + avg_duration * (remaining_tasks : ℚ))

/-- A done completion that took 180 seconds. -/
def doneIn180s : TaskCompletion :=
  { task_id := "M1.1", task_title := "Task", started_at := "s",
    completed_at := "e", duration_seconds := 180, iterations := 1,
    status := "done" }

/-- C6: `predict_eta(r)` is the current time when `r = 0`, none when the
average done-duration is 0, and otherwise now plus average×r; and on
exactly 5 done completions of 180 seconds each the average is 3.0
minutes and `predict_eta(5)` is now plus 15 minutes. -/
theorem predict_eta_correct (completions : List TaskCompletion) (now : ℚ)
    (r : Int) :
    (r = 0 → predict_eta completions now r = some now) ∧
    (get_average_duration completions = 0 → r ≠ 0 →
      predict_eta completions now r = none) ∧
    (get_average_duration completions ≠ 0 → r ≠ 0 →
      predict_eta completions now r =
        some (now + get_average_duration completions * (r : ℚ))) ∧
    (get_average_duration (List.replicate 5 doneIn180s) = 3 ∧
      predict_eta (List.replicate 5 doneIn180s) now 5 = some (now + 15)) := by
  have havg : get_average_duration (List.replicate 5 doneIn180s) = 3 := by
    norm_num [get_average_duration, doneIn180s, List.replicate]
  refine ⟨fun h0 => ?_, fun ha hr => ?_, fun ha hr => ?_, havg, ?_⟩
  · simp [predict_eta, h0]
  · simp [predict_eta, ha, hr]
  · simp [predict_eta, ha, hr]
  · rw [predict_eta]
    norm_num [havg]

/-- Concrete run of C6: with no remaining task the predicted ETA is the
current time. -/
theorem predict_eta_correct_witness :
    predict_eta [] 0 0 = some 0 :=
  (predict_eta_correct [] 0 0).1 rfl

/-! ## Control files model (`controls.py`) -/

/-- Python `str.strip()`: drop leading and trailing whitespace
(structural model over the character list). -/
def pyStrip (s : String) : String :=
  String.mk
    (((s.data.dropWhile Char.isWhitespace).reverse.dropWhile
        Char.isWhitespace).reverse)

/-- The digits-only part of the Python `int(...)` constructor: none on
an empty or non-digit character list. -/
def digitsToNat? (cs : List Char) : Option Nat :=
  if cs.isEmpty then none
  else
    cs.foldl
      (fun acc c =>
        match acc with
        | none => none
        | some n =>
            if c.isDigit then some (n * 10 + (c.toNat - Char.toNat '0'))
            else none)
      (some 0)

/-- A concrete model of Python `int(...)` on strings (optional sign then
decimal digits; none where `int` raises `ValueError`), used to
instantiate the abstract parser parameter in witnesses. -/
def pyIntParse (s : String) : Option Int :=
  match s.data with
  | '-' :: rest => (digitsToNat? rest).map (fun n => -(n : Int))
  | '+' :: rest => (digitsToNat? rest).map (fun n => (n : Int))
  | cs => (digitsToNat? cs).map (fun n => (n : Int))

/-- The hint-related file state of `Controls`: the live hint file's
contents (`none` when the file is absent) and the archive directory as a
filename→contents map. -/
structure HintState where
  hint_file : Option String := none
  archive : List (String × String) := []
deriving DecidableEq, Repr

/-- `Controls.get_hint`: none when the hint file is absent, otherwise
its contents stripped (`read_text().strip()`, modelled by
`pyStrip`). -/
def get_hint (st : HintState) : Option String :=
  st.hint_file.map pyStrip

/-- `Controls.set_hint`: overwrite the live hint file. -/
def set_hint (st : HintState) (hint : String) : HintState :=
  { st with hint_file := some hint }

/-- `Controls.consume_hint` at wall-clock `timestamp` (the strftime
`%Y%m%d-%H%M%S` string): read via `get_hint`; when a hint exists, write
one archive file `hint-{timestamp}.txt` holding it (`dictSet` models
the overwrite-or-create file write), delete the live file and return
the text; otherwise return none and touch nothing. -/
def consume_hint (st : HintState) (timestamp : String) :
    Option String × HintState :=
  match get_hint st with
  | none => (none, st)
  | some hint =>
      (some hint,
        { hint_file := none,
          archive := dictSet st.archive ("hint-" ++ timestamp ++ ".txt") hint })

/-- C7 counterexample: after `set_hint " a "` the first `consume_hint`
returns the stripped text `"a"`, not the original text `" a "`. -/
theorem consume_hint_returns_stripped :
    (consume_hint (set_hint {} " a ") "20260101-000000").1 = some "a" ∧
    (consume_hint (set_hint {} " a ") "20260101-000000").1 ≠ some " a " := by
  decide

/-- C7 (amended): after `set_hint t`, a first `consume_hint` returns `t`
stripped of leading and trailing whitespace (equal to `t` whenever `t`
has neither), performs exactly one archive write — a timestamped copy of
the stripped text — and deletes the live hint file; a second
`consume_hint` with no intervening `set_hint` returns none and changes
nothing. -/
theorem consume_hint_once (st : HintState) (t ts ts' : String) :
    (consume_hint (set_hint st t) ts).1 = some (pyStrip t) ∧
    (consume_hint (set_hint st t) ts).2.hint_file = none ∧
    (consume_hint (set_hint st t) ts).2.archive =
      dictSet st.archive ("hint-" ++ ts ++ ".txt") (pyStrip t) ∧
    consume_hint (consume_hint (set_hint st t) ts).2 ts' =
      (none, (consume_hint (set_hint st t) ts).2) :=
  ⟨rfl, rfl, rfl, rfl⟩

/-- The iteration-budget file of `Controls` (`.wiggum-max`): its
contents, or `none` when absent. -/
structure MaxState where
  max_file : Option String := none
deriving DecidableEq, Repr

/-- `Controls.get_max_iterations`, parametrized by `pyInt` modelling the
Python `int(...)` constructor on strings (`none` where `int` raises
`ValueError`): none when the file is absent or its stripped content does
not parse as an integer. -/
def get_max_iterations (pyInt : String → Option Int) (st : MaxState) :
    Option Int :=
  match st.max_file with
  | none => none
  | some content => pyInt (pyStrip content)

/-- `Controls.set_max_iterations`: write the decimal text of the new
value. -/
def set_max_iterations (st : MaxState) (max_iterations : Int) : MaxState :=
  { st with max_file := some (toString max_iterations) }

/-- `Controls.add_iterations`: read the current budget treating none as
0, write and return current + additional. -/
def add_iterations (pyInt : String → Option Int) (st : MaxState)
    (additional : Int) : Int × MaxState :=
  let current := (get_max_iterations pyInt st).getD 0
  let new_max := current + additional
  (new_max, set_max_iterations st new_max)

/-- C10: `get_max_iterations` is none when the budget file is absent and
also whenever it exists but its content does not parse as an integer;
in that state `add_iterations delta` treats the budget as 0 and writes
and returns `delta`. -/
theorem get_max_iterations_invalid (pyInt : String → Option Int)
    (st : MaxState) (delta : Int) :
    (st.max_file = none → get_max_iterations pyInt st = none) ∧
    (∀ content, st.max_file = some content → pyInt (pyStrip content) = none →
      get_max_iterations pyInt st = none) ∧
    (get_max_iterations pyInt st = none →
      add_iterations pyInt st delta =
        (delta, { max_file := some (toString delta) })) := by
  refine ⟨fun h => ?_, fun content hc hp => ?_, fun h => ?_⟩
  · rw [get_max_iterations, h]
  · rw [get_max_iterations, hc]
    exact hp
  · simp [add_iterations, set_max_iterations, h]

/-- Concrete run of C10: with the budget file holding the unparseable
text `abc`, the budget reads as none and `add_iterations 25` writes and
returns 25. -/
theorem get_max_iterations_invalid_witness :
    get_max_iterations pyIntParse { max_file := some "abc" } = none ∧
    add_iterations pyIntParse { max_file := some "abc" } 25 =
      (25, { max_file := some (toString (25 : Int)) }) :=
  ⟨(get_max_iterations_invalid pyIntParse
      { max_file := some "abc" } 25).2.1 "abc" rfl (by decide),
   (get_max_iterations_invalid pyIntParse
      { max_file := some "abc" } 25).2.2 (by decide)⟩

/-! ## History file loading model (`HistoryTracker.load`)

`load` wraps its parsing in `try: ... except (json.JSONDecodeError,
KeyError, ValueError): self.completions = []`. The parsed JSON document
is modelled as a `PyVal`; the statements inside the `try:` block are
modelled as an exception-propagating computation whose possible
exception classes are tracked exactly, because only three of them are
caught. -/

/-- A parsed JSON/Python value, as produced by `json.load` (object keys
are unique after JSON parsing). -/
inductive PyVal where
  | vNull
  | vBool (b : Bool)
  | vInt (n : Int)
  | vStr (s : String)
  | vList (items : List PyVal)
  | vDict (entries : List (String × PyVal))

/-- The Python exception classes reachable from the body of
`HistoryTracker.load`. -/
inductive PyExc where
  | jsonDecodeError
  | keyError
  | valueError
  | typeError
  | attributeError
deriving DecidableEq, Repr

/-- Dict lookup with a default value. -/
def dictGetD (entries : List (String × PyVal)) (key : String) (dflt : PyVal) :
    PyVal :=
  ((entries.find? (fun e => e.1 == key)).map Prod.snd).getD dflt

/-- `v.get(key, default)`: dict lookup with default; on a non-dict
receiver Python raises `AttributeError` (no `.get` attribute). -/
def pyGet (v : PyVal) (key : String) (dflt : PyVal) : Except PyExc PyVal :=
  match v with
  | .vDict entries => .ok (dictGetD entries key dflt)
  | _ => .error .attributeError

/-- Iterating a Python value (`for item in v`): lists yield their items,
strings their one-character substrings, dicts their keys; other values
raise `TypeError` (not iterable). -/
def pyIter : PyVal → Except PyExc (List PyVal)
  | .vList items => .ok items
  | .vStr s => .ok (s.data.map (fun c => PyVal.vStr (String.mk [c])))
  | .vDict entries => .ok (entries.map (fun e => PyVal.vStr e.1))
  | _ => .error .typeError

/-- Python truthiness for the values above. -/
def pyTruthy : PyVal → Bool
  | .vNull => false
  | .vBool b => b
  | .vInt n => n != 0
  | .vStr s => !s.isEmpty
  | .vList items => !items.isEmpty
  | .vDict entries => !entries.isEmpty

/-- `TaskCompletion(**item)` as the dataclass constructor sees it: the
seven field values, completely unvalidated (dataclasses perform no
runtime type checking). -/
structure RawCompletion where
  task_id : PyVal
  task_title : PyVal
  started_at : PyVal
  completed_at : PyVal
  duration_seconds : PyVal
  iterations : PyVal
  status : PyVal

/-- The exact keyword set accepted by `TaskCompletion(**item)`. -/
def completionFields : List String :=
  ["task_id", "task_title", "started_at", "completed_at",
   "duration_seconds", "iterations", "status"]

/-- Whether a dict's keys are exactly the seven dataclass fields; a
missing field or an unexpected keyword makes the constructor raise
`TypeError`. -/
def exactCompletionKeys (entries : List (String × PyVal)) : Bool :=
  completionFields.all (fun f => (entries.map Prod.fst).contains f) &&
    entries.all (fun e => completionFields.contains e.1)

/-- `TaskCompletion(**item)`: `TypeError` unless `item` is a dict whose
keys are exactly the seven fields (also when `item` is not a mapping at
all); field values land unchecked. -/
def mkTaskCompletion (item : PyVal) : Except PyExc RawCompletion :=
  match item with
  | .vDict entries =>
      if exactCompletionKeys entries then
        .ok
          { task_id := dictGetD entries "task_id" .vNull,
            task_title := dictGetD entries "task_title" .vNull,
            started_at := dictGetD entries "started_at" .vNull,
            completed_at := dictGetD entries "completed_at" .vNull,
            duration_seconds := dictGetD entries "duration_seconds" .vNull,
            iterations := dictGetD entries "iterations" .vNull,
            status := dictGetD entries "status" .vNull }
      else .error .typeError
  | _ => .error .typeError

/-- The list comprehension `[TaskCompletion(**item) for item in ...]`:
items left to right, the first exception propagates. -/
def mkCompletions : List PyVal → Except PyExc (List RawCompletion)
  | [] => .ok []
  | item :: rest =>
    match mkTaskCompletion item with
    | .error e => .error e
    | .ok c =>
        match mkCompletions rest with
        | .error e => .error e
        | .ok cs => .ok (c :: cs)

/-- The statements inside the `try:` block of `HistoryTracker.load`,
after `json.load` produced `data`, with every exception propagated.
`fromIso` models `datetime.fromisoformat` applied to a string (ok, or
`ValueError` on a malformed timestamp); on a non-string truthy eta the
call raises `TypeError` before parsing. The final
`baseline.get("remaining", 0)` cannot raise once `baseline.get("eta")`
succeeded and does not affect the completion log, the value `load`
produces here. -/
def loadBody (fromIso : String → Except PyExc Unit) (data : PyVal) :
    Except PyExc (List RawCompletion) :=
  match pyGet data "completions" (.vList []) with
  | .error e => .error e
  | .ok completionsVal =>
    match pyIter completionsVal with
    | .error e => .error e
    | .ok items =>
      match mkCompletions items with
      | .error e => .error e
      | .ok completions =>
        match pyGet data "baseline" .vNull with
        | .error e => .error e
        | .ok baseline =>
          if pyTruthy baseline then
            match pyGet baseline "eta" .vNull with
            | .error e => .error e
            | .ok eta =>
              if pyTruthy eta then
                match eta with
                | .vStr s =>
                    match fromIso s with
                    | .ok _ => .ok completions
                    | .error e => .error e
                | _ => .error .typeError
              else .ok completions
          else .ok completions

/-- `HistoryTracker.load` when the history file exists, applied to the
result of `json.load` (`none` models content that is not valid JSON, a
`json.JSONDecodeError`). Only `JSONDecodeError`, `KeyError` and
`ValueError` are caught, resetting the completion log to empty; any
other exception escapes the method. -/
def history_load (fromIso : String → Except PyExc Unit)
    (parsed : Option PyVal) : Except PyExc (List RawCompletion) :=
  match parsed with
  | none => .ok []
  | some data =>
      match loadBody fromIso data with
      | .ok completions => .ok completions
      | .error e =>
          if e == PyExc.jsonDecodeError || e == PyExc.keyError ||
              e == PyExc.valueError then
            .ok []
          else
            .error e

/-- An item acceptable to `TaskCompletion(**item)`. -/
def completionItemOk : PyVal → Bool
  | .vDict entries => exactCompletionKeys entries
  | _ => false

/-- The amended claim's description of the content shapes on which
`load` completes without raising: the document is a dict; its
`completions` value (defaulting to the empty list) is iterable with
every item a dict holding exactly the seven completion fields; and its
`baseline` value, when truthy, is a dict whose truthy `eta` is a
string. -/
def loadSafeShape : PyVal → Bool
  | .vDict entries =>
      (match pyIter (dictGetD entries "completions" (.vList [])) with
       | .ok items => items.all completionItemOk
       | .error _ => false) &&
      (let baseline := dictGetD entries "baseline" .vNull
       !pyTruthy baseline ||
         (match baseline with
          | .vDict bes =>
              let eta := dictGetD bes "eta" .vNull
              !pyTruthy eta ||
                (match eta with | .vStr _ => true | _ => false)
          | _ => false))
  | _ => false

/-- `pyIter` can only raise `TypeError`. -/
theorem pyIter_error_eq (v : PyVal) (e : PyExc) (h : pyIter v = .error e) :
    e = PyExc.typeError := by
  cases v <;> simp [pyIter] at h <;> simp [h]

/-- `TaskCompletion(**item)` succeeds on every acceptable item. -/
theorem mkTaskCompletion_ok (item : PyVal)
    (h : completionItemOk item = true) :
    ∃ c, mkTaskCompletion item = .ok c := by
  cases item <;> simp [completionItemOk] at h
  exact ⟨_, by rw [mkTaskCompletion, if_pos h]⟩

/-- `TaskCompletion(**item)` raises `TypeError` on every other item. -/
theorem mkTaskCompletion_err (item : PyVal)
    (h : completionItemOk item = false) :
    mkTaskCompletion item = .error PyExc.typeError := by
  cases item <;> simp [completionItemOk] at h ⊢ <;>
    first
      | rfl
      | rw [mkTaskCompletion, if_neg (by simp [h])]

/-- The completion comprehension succeeds when every item is
acceptable. -/
theorem mkCompletions_ok_of_all (items : List PyVal)
    (h : items.all completionItemOk = true) :
    ∃ cs, mkCompletions items = .ok cs := by
  induction items with
  | nil => exact ⟨[], rfl⟩
  | cons item rest ih =>
    rw [List.all_cons, Bool.and_eq_true] at h
    obtain ⟨c, hc⟩ := mkTaskCompletion_ok item h.1
    obtain ⟨cs, hcs⟩ := ih h.2
    exact ⟨c :: cs, by simp [mkCompletions, hc, hcs]⟩

/-- The completion comprehension raises `TypeError` when some item is
not acceptable. -/
theorem mkCompletions_err_of_not_all (items : List PyVal)
    (h : items.all completionItemOk = false) :
    mkCompletions items = .error PyExc.typeError := by
  induction items with
  | nil => simp at h
  | cons item rest ih =>
    cases hi : completionItemOk item
    · simp [mkCompletions, mkTaskCompletion_err item hi]
    · have hrest : rest.all completionItemOk = false := by
        simpa [hi] using h
      obtain ⟨c, hc⟩ := mkTaskCompletion_ok item hi
      simp [mkCompletions, hc, ih hrest]

/-- Classification of the `try:` block: on safe-shaped content it
completes or raises only `ValueError` (caught by `load`); on any other
parsed content it raises `TypeError` or `AttributeError` (not
caught). -/
theorem loadBody_classified (fromIso : String → Except PyExc Unit)
    (hf : ∀ s, fromIso s = .ok () ∨ fromIso s = .error PyExc.valueError)
    (data : PyVal) :
    (loadSafeShape data = true →
      (∃ cs, loadBody fromIso data = .ok cs) ∨
        loadBody fromIso data = .error PyExc.valueError) ∧
    (loadSafeShape data = false →
      loadBody fromIso data = .error PyExc.typeError ∨
        loadBody fromIso data = .error PyExc.attributeError) := by
  cases data with
  | vDict entries =>
    rcases hiter : pyIter (dictGetD entries "completions" (.vList [])) with e | items
    · have he := pyIter_error_eq _ _ hiter
      subst he
      have hshape : loadSafeShape (.vDict entries) = false := by
        simp [loadSafeShape, hiter]
      have hbody : loadBody fromIso (.vDict entries) = .error PyExc.typeError := by
        simp [loadBody, pyGet, hiter]
      exact ⟨fun h => absurd h (by simp [hshape]), fun _ => Or.inl hbody⟩
    · cases hall : items.all completionItemOk
      · have hshape : loadSafeShape (.vDict entries) = false := by
          simp [loadSafeShape, hiter, hall]
        have hbody : loadBody fromIso (.vDict entries) = .error PyExc.typeError := by
          simp [loadBody, pyGet, hiter, mkCompletions_err_of_not_all items hall]
        exact ⟨fun h => absurd h (by simp [hshape]), fun _ => Or.inl hbody⟩
      · obtain ⟨cs, hcs⟩ := mkCompletions_ok_of_all items hall
        cases hb : pyTruthy (dictGetD entries "baseline" .vNull)
        · have hshape : loadSafeShape (.vDict entries) = true := by
            simp [loadSafeShape, hiter, hall, hb]
          have hbody : loadBody fromIso (.vDict entries) = .ok cs := by
            simp [loadBody, pyGet, hiter, hcs, hb]
          exact ⟨fun _ => Or.inl ⟨cs, hbody⟩, fun h => absurd hshape (by simp [h])⟩
        · rcases hbv : dictGetD entries "baseline" .vNull with _ | bb | n | s | bitems | bes <;>
            rw [hbv] at hb
          · simp [pyTruthy] at hb
          · have hshape : loadSafeShape (.vDict entries) = false := by
              simp [loadSafeShape, hiter, hall, hbv, hb]
            have hbody : loadBody fromIso (.vDict entries) =
                .error PyExc.attributeError := by
              simp [loadBody, pyGet, hiter, hcs, hbv, hb]
            exact ⟨fun h => absurd h (by simp [hshape]), fun _ => Or.inr hbody⟩
          · have hshape : loadSafeShape (.vDict entries) = false := by
              simp [loadSafeShape, hiter, hall, hbv, hb]
            have hbody : loadBody fromIso (.vDict entries) =
                .error PyExc.attributeError := by
              simp [loadBody, pyGet, hiter, hcs, hbv, hb]
            exact ⟨fun h => absurd h (by simp [hshape]), fun _ => Or.inr hbody⟩
          · have hshape : loadSafeShape (.vDict entries) = false := by
              simp [loadSafeShape, hiter, hall, hbv, hb]
            have hbody : loadBody fromIso (.vDict entries) =
                .error PyExc.attributeError := by
              simp [loadBody, pyGet, hiter, hcs, hbv, hb]
            exact ⟨fun h => absurd h (by simp [hshape]), fun _ => Or.inr hbody⟩
          · have hshape : loadSafeShape (.vDict entries) = false := by
              simp [loadSafeShape, hiter, hall, hbv, hb]
            have hbody : loadBody fromIso (.vDict entries) =
                .error PyExc.attributeError := by
              simp [loadBody, pyGet, hiter, hcs, hbv, hb]
            exact ⟨fun h => absurd h (by simp [hshape]), fun _ => Or.inr hbody⟩
          · cases he : pyTruthy (dictGetD bes "eta" .vNull)
            · have hshape : loadSafeShape (.vDict entries) = true := by
                simp [loadSafeShape, hiter, hall, hbv, hb, he]
              have hbody : loadBody fromIso (.vDict entries) = .ok cs := by
                simp [loadBody, pyGet, hiter, hcs, hbv, hb, he]
              exact ⟨fun _ => Or.inl ⟨cs, hbody⟩, fun h => absurd hshape (by simp [h])⟩
            · rcases hev : dictGetD bes "eta" .vNull with _ | eb | en | es | eitems | ees <;>
                rw [hev] at he
              · simp [pyTruthy] at he
              · have hshape : loadSafeShape (.vDict entries) = false := by
                  simp [loadSafeShape, hiter, hall, hbv, hb, hev, he]
                have hbody : loadBody fromIso (.vDict entries) =
                    .error PyExc.typeError := by
                  simp [loadBody, pyGet, hiter, hcs, hbv, hb, hev, he]
                exact ⟨fun h => absurd h (by simp [hshape]), fun _ => Or.inl hbody⟩
              · have hshape : loadSafeShape (.vDict entries) = false := by
                  simp [loadSafeShape, hiter, hall, hbv, hb, hev, he]
                have hbody : loadBody fromIso (.vDict entries) =
                    .error PyExc.typeError := by
                  simp [loadBody, pyGet, hiter, hcs, hbv, hb, hev, he]
                exact ⟨fun h => absurd h (by simp [hshape]), fun _ => Or.inl hbody⟩
              · have hshape : loadSafeShape (.vDict entries) = true := by
                  simp [loadSafeShape, hiter, hall, hbv, hb, hev, he]
                rcases hf es with hok | herr
                · have hbody : loadBody fromIso (.vDict entries) = .ok cs := by
                    simp [loadBody, pyGet, hiter, hcs, hbv, hb, hev, he, hok]
                  exact ⟨fun _ => Or.inl ⟨cs, hbody⟩,
                    fun h => absurd hshape (by simp [h])⟩
                · have hbody : loadBody fromIso (.vDict entries) =
                      .error PyExc.valueError := by
                    simp [loadBody, pyGet, hiter, hcs, hbv, hb, hev, he, herr]
                  exact ⟨fun _ => Or.inr hbody, fun h => absurd hshape (by simp [h])⟩
              · have hshape : loadSafeShape (.vDict entries) = false := by
                  simp [loadSafeShape, hiter, hall, hbv, hb, hev, he]
                have hbody : loadBody fromIso (.vDict entries) =
                    .error PyExc.typeError := by
                  simp [loadBody, pyGet, hiter, hcs, hbv, hb, hev, he]
                exact ⟨fun h => absurd h (by simp [hshape]), fun _ => Or.inl hbody⟩
              · have hshape : loadSafeShape (.vDict entries) = false := by
                  simp [loadSafeShape, hiter, hall, hbv, hb, hev, he]
                have hbody : loadBody fromIso (.vDict entries) =
                    .error PyExc.typeError := by
                  simp [loadBody, pyGet, hiter, hcs, hbv, hb, hev, he]
                exact ⟨fun h => absurd h (by simp [hshape]), fun _ => Or.inl hbody⟩
  | vNull => exact ⟨fun h => absurd h (by simp [loadSafeShape]), fun _ => Or.inr rfl⟩
  | vBool b => exact ⟨fun h => absurd h (by simp [loadSafeShape]), fun _ => Or.inr rfl⟩
  | vInt n => exact ⟨fun h => absurd h (by simp [loadSafeShape]), fun _ => Or.inr rfl⟩
  | vStr s => exact ⟨fun h => absurd h (by simp [loadSafeShape]), fun _ => Or.inr rfl⟩
  | vList items =>
      exact ⟨fun h => absurd h (by simp [loadSafeShape]), fun _ => Or.inr rfl⟩

/-- C2 counterexample: `{"completions": [{}]}` is valid JSON, but its
completion entry misses every field, so `TaskCompletion(**{})` raises
`TypeError`, which `except (json.JSONDecodeError, KeyError, ValueError)`
does not catch — `load()` raises instead of resetting the log. -/
theorem history_load_raises_on_missing_fields :
    history_load (fun _ => .ok ())
        (some (.vDict [("completions", .vList [.vDict []])])) =
      .error PyExc.typeError :=
  rfl

/-- C2 (amended): `load()` resets the completion log to empty instead
of raising when the content is not valid JSON, and more generally it
completes without raising exactly on safe-shaped parsed content (top
level a dict, every completion entry a dict with exactly the seven
fields, a truthy baseline a dict whose truthy eta is a string — where a
malformed eta timestamp only yields a caught `ValueError`); on any
other parsed content `load()` raises an uncaught `TypeError` or
`AttributeError`. -/
theorem history_load_characterization
    (fromIso : String → Except PyExc Unit)
    (hf : ∀ s, fromIso s = .ok () ∨ fromIso s = .error PyExc.valueError)
    (parsed : Option PyVal) :
    (parsed = none → history_load fromIso parsed = .ok []) ∧
    (∀ data, parsed = some data →
      ((∃ cs, history_load fromIso parsed = .ok cs) ↔
        loadSafeShape data = true)) := by
  refine ⟨fun h => by rw [h]; rfl, fun data h => ?_⟩
  subst h
  obtain ⟨hsafe, hunsafe⟩ := loadBody_classified fromIso hf data
  constructor
  · rintro ⟨cs, hcs⟩
    by_contra hns
    have hfalse : loadSafeShape data = false := by
      simpa using hns
    rcases hunsafe hfalse with hb | hb <;>
      simp [history_load, hb] at hcs
  · intro hs
    rcases hsafe hs with ⟨cs, hcs⟩ | hval
    · exact ⟨cs, by simp [history_load, hcs]⟩
    · exact ⟨[], by simp [history_load, hval]⟩

/-- Concrete runs of the amended C2: unparseable content resets the log,
and the empty JSON object is safe-shaped (its load yields the empty
log). -/
theorem history_load_characterization_witness :
    history_load (fun _ => .ok ()) none = .ok [] ∧
    loadSafeShape (.vDict []) = true :=
  ⟨(history_load_characterization (fun _ => .ok ())
      (fun _ => Or.inl rfl) none).1 rfl,
   ((history_load_characterization (fun _ => .ok ())
      (fun _ => Or.inl rfl) (some (.vDict []))).2 (.vDict []) rfl).mp ⟨[], rfl⟩⟩

end PyWiggum
